import Mathlib

/-!
Verification of the zlog structured-logging library (github.com/ssor/zlog).

The definitions below are a shallow embedding of the repository's Go source.
The authoritative Logger implementation is the third (live) copy in
src/unnamed/part_004 (lines 783-1241), which is the one matched by the
claims' cited line numbers and by the package-level wrappers in
src/exported.go.  The trace aggregator is src/tracer.go and the text
renderer with tripHeadAndTail is the live copy in src/terminal_bsd.go.

Parts of the repository referenced by the code under src/ but whose own
source file is not under src/ (the Level enum, the Entry type with its
With*/log methods) are modelled from spec.md, as marked by doc comments
starting with "Modelled from the spec:".

Go details that the claims do not touch are abstracted: wall-clock
timestamps are omitted, the write-serialization mutex is not modelled
(the embedding is sequential), and the fmt.Sprint/Sprintf/Sprintln calls
that build a message are treated as opaque (each severity method takes
the already-formatted message string).
-/

/-- Modelled from the spec: the tagged-variant field-value type standing in
for Go's `interface{}` payloads (spec section 9: "model as a small closed
tagged-variant type {string, integer, float, boolean, error, nested-mapping,
opaque-serializable}; serialization failure becomes a variant case").
`unserializable` stands for the Go values `encoding/json.Marshal` rejects
(channels, functions, complex numbers, cyclic values). -/
inductive Value where
  | vnull : Value
  | vstr (s : String) : Value
  | vint (n : Int) : Value
  | vbool (b : Bool) : Value
  | verr (msg : String) : Value
  | vobj (entries : List (String × Value)) : Value
  | unserializable (descr : String) : Value

mutual

/-- Holds (`serializable v = true`) iff Go's `json.Marshal` succeeds on the value:
it fails exactly when the value contains an `unserializable` node. -/
def serializable : Value → Bool
  | Value.vnull => true
  | Value.vstr _ => true
  | Value.vint _ => true
  | Value.vbool _ => true
  | Value.verr _ => true
  | Value.vobj entries => serializableEntries entries
  | Value.unserializable _ => false

/-- All values of a nested-object entry list are serializable. -/
def serializableEntries : List (String × Value) → Bool
  | [] => true
  | (_, v) :: rest => serializable v && serializableEntries rest

end

/-- Embeds `encoding/json.Marshal` at the precision the claims need: the
marshalled bytes are abstracted as the (serializable) value itself, and
`none` is Go's non-nil error return. -/
def jsonMarshal (v : Value) : Option Value :=
  if serializable v then some v else none

/-- Modelled from the spec: the `Level` enum of the missing level source
file.  Spec section 3: "ordered enum {Panic, Fatal, Error, Warn, Info,
Debug} (numerically increasing = more verbose, consistent with
logger.Level >= X enables X)", matching the comparisons
`logger.Level >= DebugLevel` etc. in src/unnamed/part_004. -/
inductive Level where
  | panic : Level
  | fatal : Level
  | error : Level
  | warn : Level
  | info : Level
  | debug : Level
deriving DecidableEq, Repr

/-- Numeric value of the Level enum: PanicLevel = 0 up to DebugLevel = 5. -/
def Level.toNat : Level → Nat
  | Level.panic => 0
  | Level.fatal => 1
  | Level.error => 2
  | Level.warn => 3
  | Level.info => 4
  | Level.debug => 5

/-- Go's `a >= b` comparison on the numeric Level enum. -/
def levelGe (a b : Level) : Bool :=
  b.toNat ≤ a.toNat

/-- Fields is Go's `map[string]interface{}` context map, embedded as an
association list (key set semantics via `setField`). -/
abbrev Fields := List (String × Value)

/-- Map-style insertion: overwrite the value at the key if present,
otherwise append the binding. -/
def setField (fs : Fields) (k : String) (v : Value) : Fields :=
  if fs.any (fun kv => kv.1 = k) then
    fs.map (fun kv => if kv.1 = k then (k, v) else kv)
  else
    fs ++ [(k, v)]

/-- Merge `extra` into `fs`, later keys overwriting earlier ones sharing
the same name (Go's `for k, v := range fields { data[k] = v }`). -/
def mergeFields (fs : Fields) (extra : Fields) : Fields :=
  extra.foldl (fun acc kv => setField acc kv.1 kv.2) fs

/-- Modelled from the spec: the key under which `WithError` stores its
error value (`ErrorKey`, declared outside src/ and used by
src/exported.go's `WithError`). -/
def errorKey : String := "error"

/-- Modelled from the spec: the poolable, mutable `Entry` record of the
missing entry source file (spec section 3: "{ owning Logger; module path
string; Fields; Message string; Time; Level; optional raw JSON byte
payload; optional render Buffer }").  The owning-logger back pointer,
wall-clock time and render buffer are not modelled. -/
structure EntryM where
  moduleName : String
  data : Fields
  message : String
  level : Level
  jsonRaw : Option Value

/-- Embeds `NewEntry(logger, moduleName)`: a freshly constructed Entry, with
empty fields, empty message, Go zero level (PanicLevel = 0) and no
raw-JSON payload. -/
def freshEntry (moduleName : String) : EntryM :=
  { moduleName := moduleName
    data := []
    message := ""
    level := Level.panic
    jsonRaw := none }

/-- Modelled from the spec: `Entry.WithField` (spec section 3: chained
With* calls each return "a new logical view — field maps must be
copied-on-branch so two Entries sharing a Logger-level pool instance
never observe each other's fields").  The receiver is left unchanged. -/
def EntryM.withFieldE (e : EntryM) (k : String) (v : Value) : EntryM :=
  { e with data := setField e.data k v }

/-- Modelled from the spec: `Entry.WithFields`, merging the given data
into a copied field map, later keys overwriting earlier ones. -/
def EntryM.withFieldsE (e : EntryM) (fs : Fields) : EntryM :=
  { e with data := mergeFields e.data fs }

/-- Modelled from the spec: `Entry.WithError`, storing the error under
`ErrorKey`. -/
def EntryM.withErrorE (e : EntryM) (err : Value) : EntryM :=
  e.withFieldE errorKey err

/-- Modelled from the spec: `Entry.WithJsonRaw`, attaching the raw JSON
payload to a copied view of the entry. -/
def EntryM.withJsonRawE (e : EntryM) (bs : Value) : EntryM :=
  { e with jsonRaw := some bs }

/-- One rendered record as written to the Logger's output: the severity,
message, field map and optional raw-JSON payload the Formatter received
(spec section 6, Formatter contract).  Byte-exact layout is not
modelled. -/
structure RecordM where
  level : Level
  message : String
  data : Fields
  jsonRaw : Option Value

/-- Modelled from the spec: `Entry.log(depth, level, message)` (spec
section 4.2: "Sets Time=now, Level=level, Message=message; invokes the
Formatter ...; writes the resulting bytes to the Logger's output under
lock; returns the Entry to the pool", and section 3: the entry is "reset
(fields cleared, buffer cleared, JSON cleared)" before reuse).  Returns
the rendered record together with the reset entry handed back for
pooling.  The `depth` parameter only affects call-site reporting and is
dropped. -/
def EntryM.logE (e : EntryM) (level : Level) (message : String) :
    RecordM × EntryM :=
  ({ level := level, message := message, data := e.data, jsonRaw := e.jsonRaw },
   freshEntry e.moduleName)

/-- The Logger's output destination (`Out io.Writer`): `stderrOut` is
`os.Stderr`; `writerOut` stands for any other writer installed via
`SetOutput`. -/
inductive OutputDest where
  | stderrOut : OutputDest
  | writerOut (id : Nat) : OutputDest
deriving DecidableEq, Repr

/-- The Logger's Formatter collaborator: `text` is `new(TextFormatter)`;
`custom` stands for any caller-installed formatter. -/
inductive FormatterKind where
  | text : FormatterKind
  | custom (id : Nat) : FormatterKind
deriving DecidableEq, Repr

/-- The `Logger` of src/unnamed/part_004 (third, live copy, lines
797-819): output destination, formatter, severity threshold, module
path, entry pool and the sequence of rendered records written to `Out`
(the observable output stream).  The mutex and wall-clock time are not
modelled; the pool is a stack standing in for `sync.Pool`. -/
structure LoggerM where
  outDest : OutputDest
  formatter : FormatterKind
  level : Level
  moduleName : String
  pool : List EntryM
  written : List RecordM

/-- Embeds `New(moduleNames...)` (src/unnamed/part_004 lines 854-867): defaults
to stderr output, the Text formatter and `DebugLevel`, with the module
path joined by "/"; an empty argument list defaults to ["main"].  The
append to the package-wide `loggers` registry is not modelled. -/
def New (moduleNames : List String) : LoggerM :=
  let names := if moduleNames.length ≤ 0 then ["main"] else moduleNames
  { outDest := OutputDest.stderrOut
    formatter := FormatterKind.text
    level := Level.debug
    moduleName := String.intercalate "/" names
    pool := []
    written := [] }

/-- Embeds `Logger.newEntry` (src/unnamed/part_004 lines 884-890): take a pooled
entry if one is available, otherwise construct a fresh one via
`NewEntry(logger, logger.moduleName)`. -/
def LoggerM.newEntry (lg : LoggerM) : EntryM × LoggerM :=
  match lg.pool with
  | e :: rest => (e, { lg with pool := rest })
  | [] => (freshEntry lg.moduleName, lg)

/-- Embeds `Logger.releaseEntry` (src/unnamed/part_004 lines 892-894): put the
entry back into the pool as-is. -/
def LoggerM.releaseEntry (lg : LoggerM) (e : EntryM) : LoggerM :=
  { lg with pool := e :: lg.pool }

/-- Append one rendered record to the Logger's output stream (the write
performed inside `Entry.log`). -/
def LoggerM.writeRecord (lg : LoggerM) (r : RecordM) : LoggerM :=
  { lg with written := lg.written ++ [r] }

/-- The shared body of the severity-gated methods of
src/unnamed/part_004 lines 1006-1234 (`Debugf` ... `Panicln`): each is
`if logger.Level >= S { entry := logger.newEntry(); entry.log(0, S,
msg); logger.releaseEntry(entry) }` with its own severity constant `S`
for both the gate and the emitted level (spec section 9 notes the
methods share this one shape).  `msg` is the result of the method's
fmt.Sprint/Sprintf/Sprintln call. -/
def LoggerM.sevGated (lg : LoggerM) (s : Level) (msg : String) : LoggerM :=
  if levelGe lg.level s then
    let (e, lg1) := lg.newEntry
    let (r, e1) := e.logE s msg
    (lg1.writeRecord r).releaseEntry e1
  else
    lg

/-- Embeds `Logger.Debugf` (src/unnamed/part_004 lines 1006-1013). -/
def LoggerM.Debugf (lg : LoggerM) (msg : String) : LoggerM := lg.sevGated Level.debug msg

/-- Embeds `Logger.Infof` (src/unnamed/part_004 lines 1015-1021). -/
def LoggerM.Infof (lg : LoggerM) (msg : String) : LoggerM := lg.sevGated Level.info msg

/-- Embeds `Logger.Warnf` (src/unnamed/part_004 lines 1043-1049). -/
def LoggerM.Warnf (lg : LoggerM) (msg : String) : LoggerM := lg.sevGated Level.warn msg

/-- Embeds `Logger.Errorf` (src/unnamed/part_004 lines 1059-1065). -/
def LoggerM.Errorf (lg : LoggerM) (msg : String) : LoggerM := lg.sevGated Level.error msg

/-- Embeds `Logger.Fatalf` (src/unnamed/part_004 lines 1067-1073; this live copy
does not call Exit). -/
def LoggerM.Fatalf (lg : LoggerM) (msg : String) : LoggerM := lg.sevGated Level.fatal msg

/-- Embeds `Logger.Panicf` (src/unnamed/part_004 lines 1075-1081). -/
def LoggerM.Panicf (lg : LoggerM) (msg : String) : LoggerM := lg.sevGated Level.panic msg

/-- Embeds `Logger.Debug` (src/unnamed/part_004 lines 1083-1089). -/
def LoggerM.Debug (lg : LoggerM) (msg : String) : LoggerM := lg.sevGated Level.debug msg

/-- Embeds `Logger.Info` (src/unnamed/part_004 lines 1128-1134). -/
def LoggerM.Info (lg : LoggerM) (msg : String) : LoggerM := lg.sevGated Level.info msg

/-- Embeds `Logger.Warn` (src/unnamed/part_004 lines 1142-1148). -/
def LoggerM.Warn (lg : LoggerM) (msg : String) : LoggerM := lg.sevGated Level.warn msg

/-- Embeds `Logger.Error` (src/unnamed/part_004 lines 1150-1156). -/
def LoggerM.Error (lg : LoggerM) (msg : String) : LoggerM := lg.sevGated Level.error msg

/-- Embeds `Logger.Fatal` (src/unnamed/part_004 lines 1158-1164; no Exit in the
live copy). -/
def LoggerM.Fatal (lg : LoggerM) (msg : String) : LoggerM := lg.sevGated Level.fatal msg

/-- Embeds `Logger.Panic` (src/unnamed/part_004 lines 1166-1172). -/
def LoggerM.Panic (lg : LoggerM) (msg : String) : LoggerM := lg.sevGated Level.panic msg

/-- Embeds `Logger.Debugln` (src/unnamed/part_004 lines 1174-1180). -/
def LoggerM.Debugln (lg : LoggerM) (msg : String) : LoggerM := lg.sevGated Level.debug msg

/-- Embeds `Logger.Infoln` (src/unnamed/part_004 lines 1182-1188). -/
def LoggerM.Infoln (lg : LoggerM) (msg : String) : LoggerM := lg.sevGated Level.info msg

/-- Embeds `Logger.Warnln` (src/unnamed/part_004 lines 1196-1202). -/
def LoggerM.Warnln (lg : LoggerM) (msg : String) : LoggerM := lg.sevGated Level.warn msg

/-- Embeds `Logger.Errorln` (src/unnamed/part_004 lines 1212-1218). -/
def LoggerM.Errorln (lg : LoggerM) (msg : String) : LoggerM := lg.sevGated Level.error msg

/-- Embeds `Logger.Fatalln` (src/unnamed/part_004 lines 1220-1226; no Exit in
the live copy). -/
def LoggerM.Fatalln (lg : LoggerM) (msg : String) : LoggerM := lg.sevGated Level.fatal msg

/-- Embeds `Logger.Panicln` (src/unnamed/part_004 lines 1228-1234). -/
def LoggerM.Panicln (lg : LoggerM) (msg : String) : LoggerM := lg.sevGated Level.panic msg

/-- Embeds `Logger.Print` (src/unnamed/part_004 lines 1136-1140): no gate, and
the emitted level is `logger.Level` itself. -/
def LoggerM.Print (lg : LoggerM) (msg : String) : LoggerM :=
  let (e, lg1) := lg.newEntry
  let (r, e1) := e.logE lg.level msg
  (lg1.writeRecord r).releaseEntry e1

/-- Embeds `Logger.Printf` (src/unnamed/part_004 lines 1023-1027): same
unconditional body as Print, message built by Sprintf. -/
def LoggerM.Printf (lg : LoggerM) (msg : String) : LoggerM :=
  let (e, lg1) := lg.newEntry
  let (r, e1) := e.logE lg.level msg
  (lg1.writeRecord r).releaseEntry e1

/-- Embeds `Logger.Println` (src/unnamed/part_004 lines 1190-1194): same
unconditional body, message built by Sprintln. -/
def LoggerM.Println (lg : LoggerM) (msg : String) : LoggerM :=
  let (e, lg1) := lg.newEntry
  let (r, e1) := e.logE lg.level msg
  (lg1.writeRecord r).releaseEntry e1

/-- Embeds `Logger.WithField` (src/unnamed/part_004 lines 941-945): obtain a
pooled entry, return the branched entry with the field added, and
release the obtained entry (the deferred `releaseEntry`). -/
def LoggerM.WithField (lg : LoggerM) (k : String) (v : Value) :
    EntryM × LoggerM :=
  let (e, lg1) := lg.newEntry
  (e.withFieldE k v, lg1.releaseEntry e)

/-- Embeds `Logger.WithFields` (src/unnamed/part_004 lines 949-953). -/
def LoggerM.WithFields (lg : LoggerM) (fs : Fields) : EntryM × LoggerM :=
  let (e, lg1) := lg.newEntry
  (e.withFieldsE fs, lg1.releaseEntry e)

/-- Embeds `Logger.WithError` (src/unnamed/part_004 lines 957-961). -/
def LoggerM.WithError (lg : LoggerM) (err : Value) : EntryM × LoggerM :=
  let (e, lg1) := lg.newEntry
  (e.withErrorE err, lg1.releaseEntry e)

/-- Embeds `Logger.WithJsonRaw` (src/unnamed/part_004 lines 904-908). -/
def LoggerM.WithJsonRaw (lg : LoggerM) (bs : Value) : EntryM × LoggerM :=
  let (e, lg1) := lg.newEntry
  (e.withJsonRawE bs, lg1.releaseEntry e)

/-- The error value substituted for a failed `json.Marshal` call (the
`err` Go passes to `WithError`). -/
def marshalErrOf (v : Value) : Value :=
  Value.verr ("json: unsupported value: " ++
    match v with
    | Value.unserializable d => d
    | _ => "nested")

/-- Embeds `Logger.WithStruct` (src/unnamed/part_004 lines 896-902): marshal the
value; on error forward the error to `logger.WithError`, otherwise
forward the bytes to `logger.WithJsonRaw`. -/
def LoggerM.WithStruct (lg : LoggerM) (v : Value) : EntryM × LoggerM :=
  match jsonMarshal v with
  | none => lg.WithError (marshalErrOf v)
  | some bs => lg.WithJsonRaw bs

/-- Package-level `WithStruct` (src/exported.go lines 102-108): marshal;
on error `WithError(err)` (which is `StandardLogger().WithField(ErrorKey,
err)`), otherwise `WithJsonRaw(bs)` on the standard logger.  The standard
logger is passed explicitly instead of being read from the package-level
`std` variable. -/
def pkgWithStruct (std : LoggerM) (v : Value) : EntryM × LoggerM :=
  match jsonMarshal v with
  | none => std.WithField errorKey (marshalErrOf v)
  | some bs => std.WithJsonRaw bs

/-- The record a severity method at level `s` with message `msg` would
write on logger `lg`: the pooled (or fresh) entry's content finalized at
`(s, msg)`. -/
def recordOf (lg : LoggerM) (s : Level) (msg : String) : RecordM :=
  ((lg.newEntry).1.logE s msg).1

theorem newEntry_snd_written (lg : LoggerM) :
    (lg.newEntry).2.written = lg.written := by
  rcases lg with ⟨o, f, lv, mn, pool, w⟩
  cases pool <;> rfl

theorem sevGated_written (lg : LoggerM) (s : Level) (msg : String) :
    (lg.sevGated s msg).written =
      if levelGe lg.level s then lg.written ++ [recordOf lg s msg]
      else lg.written := by
  rcases lg with ⟨o, f, lv, mn, pool, w⟩
  cases pool <;>
    simp [LoggerM.sevGated, LoggerM.newEntry, recordOf, EntryM.logE,
      LoggerM.writeRecord, LoggerM.releaseEntry] <;>
    split <;> rfl

/-- The property C1 asserts of one severity method: it appends exactly
one rendered record when the threshold enables its severity, and writes
nothing otherwise. -/
def gatedEmitSpec (method : LoggerM → String → LoggerM) (s : Level) : Prop :=
  ∀ (lg : LoggerM) (msg : String),
    (method lg msg).written =
      if levelGe lg.level s then lg.written ++ [recordOf lg s msg]
      else lg.written

/-- C1: every severity method (Debug, Info, Warn, Error, Fatal, Panic and
their -f and -ln variants) on a Logger with threshold T writes one rendered
record to the output iff T >= S for the call's severity S, under the
fixed order Panic < Fatal < Error < Warn < Info < Debug (numerically
increasing, Debug most verbose); a gated-out call writes nothing. -/
theorem c1_severity_gating :
    gatedEmitSpec LoggerM.Debug Level.debug ∧
    gatedEmitSpec LoggerM.Debugf Level.debug ∧
    gatedEmitSpec LoggerM.Debugln Level.debug ∧
    gatedEmitSpec LoggerM.Info Level.info ∧
    gatedEmitSpec LoggerM.Infof Level.info ∧
    gatedEmitSpec LoggerM.Infoln Level.info ∧
    gatedEmitSpec LoggerM.Warn Level.warn ∧
    gatedEmitSpec LoggerM.Warnf Level.warn ∧
    gatedEmitSpec LoggerM.Warnln Level.warn ∧
    gatedEmitSpec LoggerM.Error Level.error ∧
    gatedEmitSpec LoggerM.Errorf Level.error ∧
    gatedEmitSpec LoggerM.Errorln Level.error ∧
    gatedEmitSpec LoggerM.Fatal Level.fatal ∧
    gatedEmitSpec LoggerM.Fatalf Level.fatal ∧
    gatedEmitSpec LoggerM.Fatalln Level.fatal ∧
    gatedEmitSpec LoggerM.Panic Level.panic ∧
    gatedEmitSpec LoggerM.Panicf Level.panic ∧
    gatedEmitSpec LoggerM.Panicln Level.panic ∧
    (∀ (lg : LoggerM) (s : Level) (msg : String),
      (lg.sevGated s msg).written ≠ lg.written ↔ levelGe lg.level s = true) ∧
    (Level.panic.toNat < Level.fatal.toNat ∧
     Level.fatal.toNat < Level.error.toNat ∧
     Level.error.toNat < Level.warn.toNat ∧
     Level.warn.toNat < Level.info.toNat ∧
     Level.info.toNat < Level.debug.toNat) := by
  refine ⟨?_, ?_, ?_, ?_, ?_, ?_, ?_, ?_, ?_, ?_, ?_, ?_, ?_, ?_, ?_, ?_,
    ?_, ?_, ?_, by decide⟩
  case _ => exact fun lg msg => sevGated_written lg Level.debug msg
  case _ => exact fun lg msg => sevGated_written lg Level.debug msg
  case _ => exact fun lg msg => sevGated_written lg Level.debug msg
  case _ => exact fun lg msg => sevGated_written lg Level.info msg
  case _ => exact fun lg msg => sevGated_written lg Level.info msg
  case _ => exact fun lg msg => sevGated_written lg Level.info msg
  case _ => exact fun lg msg => sevGated_written lg Level.warn msg
  case _ => exact fun lg msg => sevGated_written lg Level.warn msg
  case _ => exact fun lg msg => sevGated_written lg Level.warn msg
  case _ => exact fun lg msg => sevGated_written lg Level.error msg
  case _ => exact fun lg msg => sevGated_written lg Level.error msg
  case _ => exact fun lg msg => sevGated_written lg Level.error msg
  case _ => exact fun lg msg => sevGated_written lg Level.fatal msg
  case _ => exact fun lg msg => sevGated_written lg Level.fatal msg
  case _ => exact fun lg msg => sevGated_written lg Level.fatal msg
  case _ => exact fun lg msg => sevGated_written lg Level.panic msg
  case _ => exact fun lg msg => sevGated_written lg Level.panic msg
  case _ => exact fun lg msg => sevGated_written lg Level.panic msg
  case _ =>
    intro lg s msg
    rw [sevGated_written]
    constructor
    · intro hne
      by_contra hgate
      simp [hgate] at hne
    · intro hgate
      simp [hgate]

/-- C2 counterexample: the claim says `New` defaults the threshold to
Info so that a fresh Logger prints "nothing more verbose" than Info; in
the code (src/unnamed/part_004 line 862) the default is `DebugLevel`,
and a fresh Logger does emit a Debug-severity record. -/
theorem c2_counterexample :
    (New ["main"]).level = Level.debug ∧
    (New ["main"]).level ≠ Level.info ∧
    ((New ["main"]).Debug "printed despite the claimed Info default").written.length = 1 := by
  refine ⟨rfl, by decide, ?_⟩
  rfl

/-- C2 amended: `New(moduleNames...)` returns a Logger usable without
further configuration — output is standard error, formatter is the Text
renderer — but the default severity threshold is Debug (the most
verbose level), so a fresh Logger prints records at every severity,
including Debug, until the threshold is explicitly lowered. -/
theorem c2_new_defaults (moduleNames : List String) (msg : String) :
    (New moduleNames).outDest = OutputDest.stderrOut ∧
    (New moduleNames).formatter = FormatterKind.text ∧
    (New moduleNames).level = Level.debug ∧
    (∀ s : Level, levelGe (New moduleNames).level s = true) ∧
    ((New moduleNames).Debug msg).written =
      [recordOf (New moduleNames) Level.debug msg] := by
  refine ⟨rfl, rfl, rfl, fun s => by cases s <;> rfl, ?_⟩
  show ((New moduleNames).sevGated Level.debug msg).written = _
  rw [sevGated_written]
  rfl

/-- C9: `Print`, `Printf` and `Println` emit a record unconditionally —
no threshold gate — and the record's severity is the Logger's current
threshold level itself (`entry.log(0, logger.Level, ...)`,
src/unnamed/part_004 lines 1023-1027, 1136-1140 and 1190-1194). -/
theorem c9_print_unconditional (lg : LoggerM) (msg : String) :
    (lg.Print msg).written = lg.written ++ [recordOf lg lg.level msg] ∧
    (lg.Printf msg).written = lg.written ++ [recordOf lg lg.level msg] ∧
    (lg.Println msg).written = lg.written ++ [recordOf lg lg.level msg] ∧
    (recordOf lg lg.level msg).level = lg.level := by
  rcases lg with ⟨o, f, lv, mn, pool, w⟩
  cases pool <;>
    simp [LoggerM.Print, LoggerM.Printf, LoggerM.Println, LoggerM.newEntry,
      recordOf, EntryM.logE, LoggerM.writeRecord, LoggerM.releaseEntry]

/-- A Go string viewed as its byte sequence (Go indexing and `len` are
byte-based; every string the parser compares against is ASCII, so each
byte is a `Char.toNat` below 128). -/
abbrev GoStr := List Nat

/-- The byte sequence of an ASCII string literal. -/
def goBytes (s : String) : GoStr := s.data.map Char.toNat

/-- Embeds `PrefixStrCmp.Parse` (src/unnamed/part_004 lines 983-1004).  The
result `none` embeds the Go runtime panic raised by the slice `str[:7]`
when the input is shorter than 7 bytes; `some (level, false)` is the
normal return `(level, nil)` — the Boolean records whether the returned
error is non-nil, and every reachable return of the Go switch returns
nil (the trailing `return WarnLevel, fmt.Errorf(...)` line is
unreachable). -/
def pscParse (str : GoStr) : Option (Level × Bool) :=
  if str.length < 7 then none
  else
    let pfx := str.take 7
    if pfx = goBytes "[INFO] " then some (Level.info, false)
    else if pfx = goBytes "[WARN] " then some (Level.warn, false)
    else if pfx = goBytes "[ERROR]" then some (Level.error, false)
    else if pfx = goBytes "[FATAL]" then some (Level.fatal, false)
    else if pfx = goBytes "[DEBUG]" then some (Level.debug, false)
    else if pfx = goBytes "[PANIC]" then some (Level.panic, false)
    else some (Level.debug, false)

/-- The six recognized 7-byte prefixes of `PrefixStrCmp.Parse`. -/
def recognizedPfxs : List GoStr :=
  [goBytes "[INFO] ", goBytes "[WARN] ", goBytes "[ERROR]",
   goBytes "[FATAL]", goBytes "[DEBUG]", goBytes "[PANIC]"]

/-- C8: `PrefixStrCmp.Parse` maps each recognized 7-character prefix to
its level with a nil error, and on every other input of length at least
7 defaults to the most verbose level (Debug) with a nil error instead of
reporting a parse failure. -/
theorem c8_prefix_parse :
    (∀ s : GoStr, 7 ≤ s.length → s.take 7 = goBytes "[INFO] " →
      pscParse s = some (Level.info, false)) ∧
    (∀ s : GoStr, 7 ≤ s.length → s.take 7 = goBytes "[WARN] " →
      pscParse s = some (Level.warn, false)) ∧
    (∀ s : GoStr, 7 ≤ s.length → s.take 7 = goBytes "[ERROR]" →
      pscParse s = some (Level.error, false)) ∧
    (∀ s : GoStr, 7 ≤ s.length → s.take 7 = goBytes "[FATAL]" →
      pscParse s = some (Level.fatal, false)) ∧
    (∀ s : GoStr, 7 ≤ s.length → s.take 7 = goBytes "[DEBUG]" →
      pscParse s = some (Level.debug, false)) ∧
    (∀ s : GoStr, 7 ≤ s.length → s.take 7 = goBytes "[PANIC]" →
      pscParse s = some (Level.panic, false)) ∧
    (∀ s : GoStr, 7 ≤ s.length → s.take 7 ∉ recognizedPfxs →
      pscParse s = some (Level.debug, false)) := by
  refine ⟨?_, ?_, ?_, ?_, ?_, ?_, ?_⟩ <;> intro s hlen hpfx <;>
    have h7 : ¬ s.length < 7 := by omega
  case _ => simp [pscParse, h7, hpfx]
  case _ => simp [pscParse, h7, hpfx, goBytes]
  case _ => simp [pscParse, h7, hpfx, goBytes]
  case _ => simp [pscParse, h7, hpfx, goBytes]
  case _ => simp [pscParse, h7, hpfx, goBytes]
  case _ => simp [pscParse, h7, hpfx, goBytes]
  case _ =>
    simp only [recognizedPfxs, List.mem_cons, List.not_mem_nil, or_false,
      not_or] at hpfx
    obtain ⟨h1, h2, h3, h4, h5, h6⟩ := hpfx
    simp [pscParse, h7, h1, h2, h3, h4, h5, h6]

/-- C8 witness: a recognized prefix and an unrecognized 13-byte input,
evaluated concretely. -/
theorem c8_prefix_parse_witness :
    pscParse (goBytes "[WARN] done") = some (Level.warn, false) ∧
    pscParse (goBytes "unrecognized!") = some (Level.debug, false) := by
  constructor
  · exact c8_prefix_parse.2.1 (goBytes "[WARN] done") (by decide) (by decide)
  · exact c8_prefix_parse.2.2.2.2.2.2 (goBytes "unrecognized!") (by decide)
      (by decide)

/-- C10: `PrefixStrCmp.Parse` panics (the `str[:7]` slice is out of
range) on every input shorter than 7 bytes, instead of returning a level
or an error. -/
theorem c10_short_input_panics (s : GoStr) (h : s.length < 7) :
    pscParse s = none := by
  simp [pscParse, h]

/-- C10 witness: the 6-byte input "[INFO]" (no trailing space) panics. -/
theorem c10_short_input_panics_witness :
    pscParse (goBytes "[INFO]") = none :=
  c10_short_input_panics (goBytes "[INFO]") (by decide)

/-- Embeds `tripHeadAndTail(src, count)` (src/terminal_bsd.go lines 196-206,
live TextFormatter copy), over the string's byte/character sequence: a
string at most `count` long is returned unchanged; otherwise `count` is
rounded up to even and the result is
`src[:count/2] + "..." + src[length-count/2 : length-1]` — note the Go
tail slice stops at `length-1`, dropping the final character. -/
def tripHeadAndTail (src : List Char) (count : Nat) : List Char :=
  let length := src.length
  if length ≤ count then src
  else
    let c := if count % 2 ≠ 0 then count + 1 else count
    src.take (c / 2) ++ ['.', '.', '.'] ++
      ((src.drop (length - c / 2)).take (c / 2 - 1))

/-- The field-value rendering of the live `TextFormatter.Format`
(src/terminal_bsd.go lines 132 and 187): each value is stringified with
`fmt.Sprintf("%+v", v)` (opaque here) and printed as
`tripHeadAndTail(value, 128)`. -/
def renderFieldValue (value : List Char) : List Char :=
  tripHeadAndTail value 128

set_option maxRecDepth 8192 in
/-- C7 counterexample: for the 130-character value
`64 times x followed by 66 dots`, the renderer's truncation returns the
raw full value itself, and its length is 130, not the configured width
128 — refuting both "together totaling the configured width" and "never
prints the raw full value". -/
theorem c7_counterexample :
    (List.replicate 64 'x' ++ List.replicate 66 '.').length = 130 ∧
    128 < (List.replicate 64 'x' ++ List.replicate 66 '.').length ∧
    renderFieldValue (List.replicate 64 'x' ++ List.replicate 66 '.') =
      List.replicate 64 'x' ++ List.replicate 66 '.' ∧
    (renderFieldValue (List.replicate 64 'x' ++ List.replicate 66 '.')).length ≠ 128 := by
  refine ⟨by simp, by simp, ?_, ?_⟩ <;> decide

/-- C7 amended: for every field value longer than the configured width
128, the Text renderer prints the first 64 characters, an ellipsis, and
the 63 characters preceding (but excluding) the last one — a head slice,
ellipsis and tail slice totaling 130 characters (the configured width
plus two), never a plain suffix truncation; the output can coincide with
the raw value, and its length never equals the configured width. -/
theorem c7_trip_head_and_tail (s : List Char) (h : 128 < s.length) :
    renderFieldValue s =
      s.take 64 ++ ['.', '.', '.'] ++ ((s.drop (s.length - 64)).take 63) ∧
    (renderFieldValue s).length = 130 := by
  have hns : ¬ s.length ≤ 128 := by omega
  constructor
  · simp [renderFieldValue, tripHeadAndTail, hns]
  · simp only [renderFieldValue, tripHeadAndTail, hns, if_false]
    simp [List.length_take, List.length_drop]
    omega

/-- C7 witness: the amended characterization evaluated at a concrete
129-character value. -/
theorem c7_trip_head_and_tail_witness :
    renderFieldValue (List.replicate 129 'a') =
      (List.replicate 129 'a').take 64 ++ ['.', '.', '.'] ++
        (((List.replicate 129 'a').drop ((List.replicate 129 'a').length - 64)).take 63) ∧
    (renderFieldValue (List.replicate 129 'a')).length = 130 :=
  c7_trip_head_and_tail (List.replicate 129 'a') (by simp)

/-- Color escape codes (src/text_formatter.go lines 13-20). -/
def nocolor : Nat := 0

/-- Red escape code 31. -/
def red : Nat := 31

/-- Green escape code 32. -/
def green : Nat := 32

/-- Yellow escape code 33. -/
def yellow : Nat := 33

/-- Blue escape code 34. -/
def blue : Nat := 34

/-- The package-level `colors` used/unused map right after `init`
(src/tracer.go lines 16-24), in insertion order red, green, yellow,
blue.  Go map iteration order is unspecified; the embedding fixes the
insertion order, and the facts that decide the claims (one
`generateNewChain` call marks every color used; later chains get
nocolor) hold under any iteration order. -/
def initColors : List (Nat × Bool) := [(red, false), (green, false), (yellow, false), (blue, false)]

/-- Sets `colors[c] = true`. -/
def setColorUsed (cs : List (Nat × Bool)) (c : Nat) : List (Nat × Bool) :=
  cs.map (fun p => if p.1 = c then (c, true) else p)

/-- Embeds `generateNewChain` (src/tracer.go lines 73-82): iterate over the
colors map and, for every color still unused, mark it used and overwrite
the chain's color — the loop has no break, so one call claims all
remaining colors and the chain ends with the last unused color of the
iteration (or nocolor when none was unused).  The loop body only writes
the key it is visiting, so reading each `used` flag from the initial map
matches Go's read-current-value semantics. -/
def generateNewChain (cs : List (Nat × Bool)) : List (Nat × Bool) × Nat :=
  cs.foldl (fun st p => if p.2 = false then (setColorUsed st.1 p.1, p.1) else st)
    (cs, nocolor)

/-- Embeds `TraceBlock` (src/tracer.go lines 130-135): the captured fields, the
opaque payload, the message `fmt.Sprint(args...)` (opaque) and the
inherited chain color. -/
structure TraceBlock where
  fields : Fields
  obj : Value
  args : String
  color : Nat

/-- Embeds `TraceChain` (src/tracer.go lines 115-118): the ordered block buffer
(`container/list` walked front-to-back = FIFO) and the assigned color. -/
structure TraceChain where
  blocks : List TraceBlock
  color : Nat

/-- Embeds `TraceChain.addBlock` (src/tracer.go lines 111-113): `PushBack`. -/
def TraceChain.addBlock (tc : TraceChain) (b : TraceBlock) : TraceChain :=
  { tc with blocks := tc.blocks ++ [b] }

/-- Embeds `newTraceBlock` (src/tracer.go lines 120-128). -/
def newTraceBlock (color : Nat) (args : String) (obj : Value) (fields : Fields) :
    TraceBlock :=
  { fields := fields, obj := obj, args := args, color := color }

/-- The package-level mutable state of src/tracer.go: the channel
registry `chains` (Go map, embedded as an association list keyed by the
channel index) and the color used/unused map. -/
structure TraceState where
  chains : List (Int × TraceChain)
  colors : List (Nat × Bool)

/-- The state established by `init` (src/tracer.go lines 16-24). -/
def initTraceState : TraceState := { chains := [], colors := initColors }

/-- Update the chain stored at channel `i`. -/
def updChain (cs : List (Int × TraceChain)) (i : Int) (f : TraceChain → TraceChain) :
    List (Int × TraceChain) :=
  cs.map (fun p => if p.1 = i then (i, f p.2) else p)

/-- Embeds `Trace(index, fields, obj, args...)` (src/tracer.go lines 62-71):
lazily create the channel's chain via `generateNewChain` and append a
new block carrying the chain's color. -/
def Trace (st : TraceState) (index : Int) (fields : Fields) (obj : Value)
    (args : String) : TraceState :=
  match st.chains.lookup index with
  | some chain =>
      { st with
        chains := updChain st.chains index
          (fun ch => ch.addBlock (newTraceBlock chain.color args obj fields)) }
  | none =>
      let pr := generateNewChain st.colors
      let chain : TraceChain := { blocks := [], color := pr.2 }
      { chains := st.chains ++
          [(index, chain.addBlock (newTraceBlock pr.2 args obj fields))]
        colors := pr.1 }

/-- One block's rendering as written to the standard logger's output by
`printBlock` (src/tracer.go lines 137-162): the colorized message line,
one line per field, and the pretty-printed marshalled payload.  The
byte-exact fmt layout is abstracted; the content is carried through. -/
structure RenderedBlock where
  color : Nat
  message : String
  fields : Fields
  objJson : Value

/-- Embeds `printBlock` (src/tracer.go lines 137-162): build the record, then
`json.Marshal(block.Obj)`; a marshal error hits `panic(err)`
(lines 150-153) before anything reaches the output — embedded as `none`.
On success the buffer is written to `StandardLogger().Out`. -/
def printBlock (b : TraceBlock) : Option RenderedBlock :=
  match jsonMarshal b.obj with
  | none => none
  | some j => some { color := b.color, message := b.args, fields := b.fields, objJson := j }

/-- The `TraceEnd` loop body over a block buffer: render blocks in FIFO
order, each written to the output as soon as rendered; a panicking block
aborts the walk — the Boolean is true when the Go call panicked, and the
list holds exactly the blocks written before the panic. -/
def printBlocks : List TraceBlock → List RenderedBlock × Bool
  | [] => ([], false)
  | b :: rest =>
    match printBlock b with
    | none => ([], true)
    | some r =>
      let pr := printBlocks rest
      (r :: pr.1, pr.2)

/-- Embeds `TraceEnd(index)` (src/tracer.go lines 94-102): an absent channel
renders nothing; otherwise every buffered block of that channel is
rendered in insertion order.  The loop only reads the registry, so the
state comes back unchanged — the buffer is not cleared. -/
def TraceEnd (st : TraceState) (index : Int) :
    (List RenderedBlock × Bool) × TraceState :=
  match st.chains.lookup index with
  | none => (([], false), st)
  | some chain => (printBlocks chain.blocks, st)

/-- One `Trace` call of an interleaving. -/
structure TraceCall where
  index : Int
  fields : Fields
  obj : Value
  args : String

/-- Run a sequence of `Trace` calls from a given state. -/
def runTraces (st : TraceState) : List TraceCall → TraceState
  | [] => st
  | c :: rest => runTraces (Trace st c.index c.fields c.obj c.args) rest

/-- The block buffer of channel `i` ([] when the channel has no chain). -/
def chainBlocksAt (st : TraceState) (i : Int) : List TraceBlock :=
  match st.chains.lookup i with
  | some ch => ch.blocks
  | none => []

/-- The color of channel `i`'s chain (nocolor when absent). -/
def chainColorAt (st : TraceState) (i : Int) : Nat :=
  match st.chains.lookup i with
  | some ch => ch.color
  | none => nocolor

/-- C3 failing-input evaluation: three `Trace` calls on fresh channels
0, 1, 2 from the init state.  The first call's `generateNewChain` marks
every palette color used (the loop has no break) and hands chain 0 the
last-iterated unused color (blue, under the embedding's fixed map
order); chains 1 and 2 both receive the sentinel `nocolor`, so the three
chains are not pairwise distinct and chains 1 and 2 never claimed a
first-unused palette color, contradicting the claim for N = 3 <= 4. -/
theorem c3_missing_break_eval :
    (∀ p ∈ (Trace initTraceState 0 [] Value.vnull "a").colors, p.2 = true) ∧
    chainColorAt (runTraces initTraceState
      [⟨0, [], Value.vnull, "a"⟩, ⟨1, [], Value.vnull, "b"⟩,
       ⟨2, [], Value.vnull, "c"⟩]) 0 = blue ∧
    chainColorAt (runTraces initTraceState
      [⟨0, [], Value.vnull, "a"⟩, ⟨1, [], Value.vnull, "b"⟩,
       ⟨2, [], Value.vnull, "c"⟩]) 1 = nocolor ∧
    chainColorAt (runTraces initTraceState
      [⟨0, [], Value.vnull, "a"⟩, ⟨1, [], Value.vnull, "b"⟩,
       ⟨2, [], Value.vnull, "c"⟩]) 2 = nocolor := by
  refine ⟨by decide, rfl, rfl, rfl⟩

theorem lookup_updChain_self (cs : List (Int × TraceChain)) (i : Int)
    (f : TraceChain → TraceChain) :
    (updChain cs i f).lookup i = (cs.lookup i).map f := by
  induction cs with
  | nil => rfl
  | cons p rest ih =>
    rcases p with ⟨k, ch⟩
    simp only [updChain, List.map_cons]
    by_cases hk : k = i
    · subst hk
      rw [if_pos (show ((k, ch) : Int × TraceChain).1 = k from rfl)]
      simp only [List.lookup, beq_self_eq_true]
      rfl
    · rw [if_neg (show ¬ ((k, ch) : Int × TraceChain).1 = i from hk)]
      simp only [List.lookup]
      have hik : (i == k) = false := by
        rw [beq_eq_false_iff_ne]
        exact fun h => hk h.symm
      rw [hik]
      simpa [updChain] using ih

theorem lookup_updChain_ne (cs : List (Int × TraceChain)) (i j : Int)
    (f : TraceChain → TraceChain) (h : j ≠ i) :
    (updChain cs i f).lookup j = cs.lookup j := by
  induction cs with
  | nil => rfl
  | cons p rest ih =>
    rcases p with ⟨k, ch⟩
    simp only [updChain, List.map_cons]
    by_cases hk : k = i
    · subst hk
      rw [if_pos (show ((k, ch) : Int × TraceChain).1 = k from rfl)]
      simp only [List.lookup]
      have hjk : (j == k) = false := by
        rw [beq_eq_false_iff_ne]
        exact h
      rw [hjk]
      simpa [updChain] using ih
    · rw [if_neg (show ¬ ((k, ch) : Int × TraceChain).1 = i from hk)]
      simp only [List.lookup]
      cases hjk : (j == k) with
      | true => rfl
      | false => simpa [updChain] using ih

theorem lookup_append_of_some (cs l : List (Int × TraceChain)) (j : Int)
    (ch : TraceChain) (h : cs.lookup j = some ch) :
    (cs ++ l).lookup j = some ch := by
  induction cs with
  | nil => simp [List.lookup] at h
  | cons p rest ih =>
    rcases p with ⟨k, v⟩
    simp only [List.cons_append, List.lookup] at h ⊢
    cases hjk : (j == k) with
    | true => rw [hjk] at h; exact h
    | false => rw [hjk] at h; exact ih h

theorem lookup_append_of_none (cs l : List (Int × TraceChain)) (j : Int)
    (h : cs.lookup j = none) :
    (cs ++ l).lookup j = l.lookup j := by
  induction cs with
  | nil => rfl
  | cons p rest ih =>
    rcases p with ⟨k, v⟩
    simp only [List.cons_append, List.lookup] at h ⊢
    cases hjk : (j == k) with
    | true => rw [hjk] at h; exact absurd h (by simp)
    | false => rw [hjk] at h; exact ih h

theorem chainBlocksAt_trace (st : TraceState) (idx : Int) (fields : Fields)
    (obj : Value) (args : String) (i : Int) :
    chainBlocksAt (Trace st idx fields obj args) i =
      chainBlocksAt st i ++
        (if idx = i then
          [newTraceBlock (chainColorAt (Trace st idx fields obj args) i)
            args obj fields]
         else []) := by
  by_cases hidx : idx = i
  · subst hidx
    rw [if_pos rfl]
    cases hl : st.chains.lookup idx with
    | some chain =>
      simp only [Trace, hl, chainBlocksAt, chainColorAt]
      rw [lookup_updChain_self, hl]
      simp [TraceChain.addBlock]
    | none =>
      simp only [Trace, hl, chainBlocksAt, chainColorAt, TraceChain.addBlock]
      rw [lookup_append_of_none _ _ _ hl]
      simp [List.lookup]
  · rw [if_neg hidx]
    have hne : i ≠ idx := fun hh => hidx hh.symm
    cases hl : st.chains.lookup idx with
    | some chain =>
      simp only [Trace, hl, chainBlocksAt]
      rw [lookup_updChain_ne _ _ _ _ hne]
      simp
    | none =>
      simp only [Trace, hl, chainBlocksAt]
      cases hli : st.chains.lookup i with
      | some ch2 =>
        rw [lookup_append_of_some _ _ _ _ hli]
        simp
      | none =>
        rw [lookup_append_of_none _ _ _ hli]
        simp only [List.lookup]
        have : (i == idx) = false := by
          rw [beq_eq_false_iff_ne]; exact hne
        rw [this]
        rfl

theorem chainPresent_trace (st : TraceState) (idx : Int) (fields : Fields)
    (obj : Value) (args : String) (i : Int)
    (h : idx = i ∨ (st.chains.lookup i).isSome = true) :
    (((Trace st idx fields obj args).chains).lookup i).isSome = true := by
  by_cases hidx : idx = i
  · subst hidx
    cases hl : st.chains.lookup idx with
    | some chain =>
      simp only [Trace, hl]
      rw [lookup_updChain_self, hl]
      rfl
    | none =>
      simp only [Trace, hl]
      rw [lookup_append_of_none _ _ _ hl]
      simp [List.lookup]
  · have hne : i ≠ idx := fun hh => hidx hh.symm
    have hsome : (st.chains.lookup i).isSome = true := by
      rcases h with h | h
      · exact absurd h hidx
      · exact h
    cases hl : st.chains.lookup idx with
    | some chain =>
      simp only [Trace, hl]
      rw [lookup_updChain_ne _ _ _ _ hne]
      exact hsome
    | none =>
      simp only [Trace, hl]
      cases hli : st.chains.lookup i with
      | some ch2 => rw [lookup_append_of_some _ _ _ _ hli]; rfl
      | none => rw [hli] at hsome; simp at hsome

theorem chainColorAt_trace_stable (st : TraceState) (idx : Int)
    (fields : Fields) (obj : Value) (args : String) (i : Int)
    (h : (st.chains.lookup i).isSome = true) :
    chainColorAt (Trace st idx fields obj args) i = chainColorAt st i := by
  cases hli : st.chains.lookup i with
  | none => rw [hli] at h; simp at h
  | some chi =>
    by_cases hidx : idx = i
    · subst hidx
      simp only [Trace, hli, chainBlocksAt, chainColorAt]
      rw [lookup_updChain_self, hli]
      simp [TraceChain.addBlock]
    · have hne : i ≠ idx := fun hh => hidx hh.symm
      cases hl : st.chains.lookup idx with
      | some chain =>
        simp only [Trace, hl, chainColorAt]
        rw [lookup_updChain_ne _ _ _ _ hne]
      | none =>
        simp only [Trace, hl, chainColorAt]
        rw [lookup_append_of_some _ _ _ _ hli, hli]

theorem chainPresent_runTraces (ops : List TraceCall) (st : TraceState)
    (i : Int) (h : (st.chains.lookup i).isSome = true) :
    ((runTraces st ops).chains.lookup i).isSome = true := by
  induction ops generalizing st with
  | nil => exact h
  | cons c rest ih =>
    exact ih _ (chainPresent_trace st c.index c.fields c.obj c.args i (Or.inr h))

theorem chainColorAt_runTraces_stable (ops : List TraceCall)
    (st : TraceState) (i : Int) (h : (st.chains.lookup i).isSome = true) :
    chainColorAt (runTraces st ops) i = chainColorAt st i := by
  induction ops generalizing st with
  | nil => rfl
  | cons c rest ih =>
    have h1 := chainPresent_trace st c.index c.fields c.obj c.args i (Or.inr h)
    calc chainColorAt (runTraces (Trace st c.index c.fields c.obj c.args) rest) i
        = chainColorAt (Trace st c.index c.fields c.obj c.args) i := ih _ h1
      _ = chainColorAt st i := chainColorAt_trace_stable st c.index c.fields c.obj c.args i h

theorem chainBlocksAt_runTraces (ops : List TraceCall) (st : TraceState)
    (i : Int) :
    chainBlocksAt (runTraces st ops) i =
      chainBlocksAt st i ++
        (ops.filter (fun c => c.index == i)).map
          (fun c => newTraceBlock (chainColorAt (runTraces st ops) i)
            c.args c.obj c.fields) := by
  induction ops generalizing st with
  | nil => simp [runTraces]
  | cons c rest ih =>
    have hrun : runTraces st (c :: rest) =
        runTraces (Trace st c.index c.fields c.obj c.args) rest := rfl
    rw [hrun, ih (Trace st c.index c.fields c.obj c.args),
      chainBlocksAt_trace]
    by_cases hc : c.index = i
    · have hp : (((Trace st c.index c.fields c.obj c.args).chains).lookup i).isSome = true :=
        chainPresent_trace st c.index c.fields c.obj c.args i (Or.inl hc)
      have hcolor : chainColorAt (runTraces (Trace st c.index c.fields c.obj c.args) rest) i =
          chainColorAt (Trace st c.index c.fields c.obj c.args) i :=
        chainColorAt_runTraces_stable rest _ i hp
      have hfil : (c :: rest).filter (fun c => c.index == i) =
          c :: rest.filter (fun c => c.index == i) := by
        simp [List.filter_cons, hc]
      rw [hfil, if_pos hc, hcolor]
      simp [List.append_assoc]
    · have hfil : (c :: rest).filter (fun c => c.index == i) =
          rest.filter (fun c => c.index == i) := by
        simp [List.filter_cons, hc]
      rw [hfil, if_neg hc]
      simp

/-- The rendering `printBlock` produces for a block whose payload
marshals successfully. -/
def renderBlockOk (b : TraceBlock) : RenderedBlock :=
  { color := b.color, message := b.args, fields := b.fields,
    objJson := (jsonMarshal b.obj).getD Value.vnull }

theorem printBlocks_all_ok (bs : List TraceBlock)
    (h : ∀ b ∈ bs, serializable b.obj = true) :
    printBlocks bs = (bs.map renderBlockOk, false) := by
  induction bs with
  | nil => rfl
  | cons b rest ih =>
    have hb : serializable b.obj = true := h b (by simp)
    have hrest : ∀ x ∈ rest, serializable x.obj = true :=
      fun x hx => h x (by simp [hx])
    simp only [printBlocks, printBlock, jsonMarshal, hb, if_pos]
    rw [ih hrest]
    simp [renderBlockOk, jsonMarshal, hb]

/-- C4 counterexample: append one block with an unserializable payload
to channel 0 (and one to channel 1); `TraceEnd(0)` then renders nothing
and panics (`printBlock`'s `panic(err)`) instead of rendering exactly
the one block appended to channel 0, refuting the claim as stated for
this interleaving. -/
theorem c4_counterexample :
    (chainBlocksAt (runTraces initTraceState
      [⟨0, [], Value.unserializable "chan value", "A"⟩,
       ⟨1, [], Value.vnull, "C"⟩]) 0).length = 1 ∧
    (TraceEnd (runTraces initTraceState
      [⟨0, [], Value.unserializable "chan value", "A"⟩,
       ⟨1, [], Value.vnull, "C"⟩]) 0).1 = ([], true) :=
  ⟨rfl, rfl⟩

/-- C4 amended: for every interleaving of Trace calls, provided every
block appended to channel i has a JSON-serializable payload, TraceEnd(i)
renders exactly the blocks appended to channel i in insertion (FIFO)
order — no block of any other channel — without panicking; TraceEnd
leaves the trace state (hence the buffer) unchanged, so an immediately
repeated TraceEnd(i) renders the same blocks again.  (Without the
serializability proviso, TraceEnd panics at the first failing block,
rendering only the preceding ones.) -/
theorem c4_trace_flush (ops : List TraceCall) (i : Int)
    (h : ∀ c ∈ ops, c.index = i → serializable c.obj = true) :
    chainBlocksAt (runTraces initTraceState ops) i =
      (ops.filter (fun c => c.index == i)).map
        (fun c => newTraceBlock (chainColorAt (runTraces initTraceState ops) i)
          c.args c.obj c.fields) ∧
    (TraceEnd (runTraces initTraceState ops) i).1 =
      ((chainBlocksAt (runTraces initTraceState ops) i).map renderBlockOk,
        false) ∧
    (TraceEnd (runTraces initTraceState ops) i).2 =
      runTraces initTraceState ops ∧
    (TraceEnd ((TraceEnd (runTraces initTraceState ops) i).2) i).1 =
      (TraceEnd (runTraces initTraceState ops) i).1 := by
  have h1 : chainBlocksAt (runTraces initTraceState ops) i =
      (ops.filter (fun c => c.index == i)).map
        (fun c => newTraceBlock (chainColorAt (runTraces initTraceState ops) i)
          c.args c.obj c.fields) := by
    have hmain := chainBlocksAt_runTraces ops initTraceState i
    have hinit : chainBlocksAt initTraceState i = [] := rfl
    rw [hinit] at hmain
    simpa using hmain
  have hser : ∀ b ∈ chainBlocksAt (runTraces initTraceState ops) i,
      serializable b.obj = true := by
    intro b hb
    rw [h1] at hb
    simp only [List.mem_map] at hb
    obtain ⟨c, hc, hbc⟩ := hb
    simp only [List.mem_filter] at hc
    have hidx : c.index = i := by
      have := hc.2
      rwa [beq_iff_eq] at this
    have := h c hc.1 hidx
    rw [← hbc]
    exact this
  have h3 : (TraceEnd (runTraces initTraceState ops) i).2 =
      runTraces initTraceState ops := by
    cases hl : (runTraces initTraceState ops).chains.lookup i <;>
      simp [TraceEnd, hl]
  have h2 : (TraceEnd (runTraces initTraceState ops) i).1 =
      ((chainBlocksAt (runTraces initTraceState ops) i).map renderBlockOk,
        false) := by
    cases hl : (runTraces initTraceState ops).chains.lookup i with
    | none => simp [TraceEnd, chainBlocksAt, hl]
    | some chain =>
      have hbl : ∀ b ∈ chain.blocks, serializable b.obj = true := by
        intro b hb
        apply hser
        unfold chainBlocksAt
        rw [hl]
        exact hb
      simp only [TraceEnd, chainBlocksAt, hl]
      exact printBlocks_all_ok chain.blocks hbl
  exact ⟨h1, h2, h3, by rw [h3]⟩

/-- C4 witness: blocks A, B appended to channel 0 interleaved with C on
channel 1, all with serializable payloads; the amended theorem applied
at this concrete interleaving. -/
theorem c4_trace_flush_witness :
    chainBlocksAt (runTraces initTraceState
      [⟨0, [], Value.vnull, "A"⟩, ⟨1, [], Value.vnull, "C"⟩,
       ⟨0, [], Value.vnull, "B"⟩]) 0 =
      (([⟨0, [], Value.vnull, "A"⟩, ⟨1, [], Value.vnull, "C"⟩,
         ⟨0, [], Value.vnull, "B"⟩] : List TraceCall).filter
          (fun c => c.index == 0)).map
        (fun c => newTraceBlock (chainColorAt (runTraces initTraceState
          [⟨0, [], Value.vnull, "A"⟩, ⟨1, [], Value.vnull, "C"⟩,
           ⟨0, [], Value.vnull, "B"⟩]) 0) c.args c.obj c.fields) ∧
    (TraceEnd (runTraces initTraceState
      [⟨0, [], Value.vnull, "A"⟩, ⟨1, [], Value.vnull, "C"⟩,
       ⟨0, [], Value.vnull, "B"⟩]) 0).1 =
      ((chainBlocksAt (runTraces initTraceState
        [⟨0, [], Value.vnull, "A"⟩, ⟨1, [], Value.vnull, "C"⟩,
         ⟨0, [], Value.vnull, "B"⟩]) 0).map renderBlockOk, false) ∧
    (TraceEnd (runTraces initTraceState
      [⟨0, [], Value.vnull, "A"⟩, ⟨1, [], Value.vnull, "C"⟩,
       ⟨0, [], Value.vnull, "B"⟩]) 0).2 =
      runTraces initTraceState
        [⟨0, [], Value.vnull, "A"⟩, ⟨1, [], Value.vnull, "C"⟩,
         ⟨0, [], Value.vnull, "B"⟩] ∧
    (TraceEnd ((TraceEnd (runTraces initTraceState
      [⟨0, [], Value.vnull, "A"⟩, ⟨1, [], Value.vnull, "C"⟩,
       ⟨0, [], Value.vnull, "B"⟩]) 0).2) 0).1 =
      (TraceEnd (runTraces initTraceState
        [⟨0, [], Value.vnull, "A"⟩, ⟨1, [], Value.vnull, "C"⟩,
         ⟨0, [], Value.vnull, "B"⟩]) 0).1 :=
  c4_trace_flush
    [⟨0, [], Value.vnull, "A"⟩, ⟨1, [], Value.vnull, "C"⟩,
     ⟨0, [], Value.vnull, "B"⟩] 0 (by decide)

/-- C6 counterexample: a trace block whose payload fails to marshal.
`printBlock` hits `panic(err)` (src/tracer.go lines 150-153) — embedded
as the `none` result — so a serialization failure while rendering a
trace block's payload during TraceEnd IS propagated to the caller as a
panic, refuting the claim for that third code path. -/
theorem c6_counterexample :
    printBlock { fields := [], obj := Value.unserializable "func() value",
                 args := "msg", color := 31 } = none := rfl

/-- C6 amended: a JSON-serialization failure in `Logger.WithStruct` and
in the package-level `WithStruct` is recovered locally — the call
degrades to `WithError`, which stores the error as a field under
`ErrorKey`, and no error or panic reaches the caller; but a marshal
failure of a trace block's payload inside `printBlock` (during
`TraceEnd`) panics instead of being recovered. -/
theorem c6_marshal_failures (lg std : LoggerM) (v : Value) (b : TraceBlock)
    (hv : serializable v = false) (hb : serializable b.obj = false) :
    lg.WithStruct v = lg.WithError (marshalErrOf v) ∧
    (lg.WithStruct v).1.data =
      setField ((lg.newEntry).1.data) errorKey (marshalErrOf v) ∧
    pkgWithStruct std v = std.WithField errorKey (marshalErrOf v) ∧
    (pkgWithStruct std v).1.data =
      setField ((std.newEntry).1.data) errorKey (marshalErrOf v) ∧
    printBlock b = none := by
  refine ⟨?_, ?_, ?_, ?_, ?_⟩
  · simp [LoggerM.WithStruct, jsonMarshal, hv]
  · rcases hne : lg.newEntry with ⟨e, lg1⟩
    simp [LoggerM.WithStruct, jsonMarshal, hv, LoggerM.WithError, hne,
      EntryM.withErrorE, EntryM.withFieldE]
  · simp [pkgWithStruct, jsonMarshal, hv]
  · rcases hne : std.newEntry with ⟨e, lg1⟩
    simp [pkgWithStruct, jsonMarshal, hv, LoggerM.WithField, hne,
      EntryM.withFieldE]
  · simp [printBlock, jsonMarshal, hb]

/-- C6 witness: the amended behavior at concrete unserializable values
on a fresh logger. -/
theorem c6_marshal_failures_witness :
    (New ["main"]).WithStruct (Value.unserializable "func value") =
      (New ["main"]).WithError
        (marshalErrOf (Value.unserializable "func value")) ∧
    ((New ["main"]).WithStruct (Value.unserializable "func value")).1.data =
      setField (((New ["main"]).newEntry).1.data) errorKey
        (marshalErrOf (Value.unserializable "func value")) ∧
    pkgWithStruct (New ["main"]) (Value.unserializable "func value") =
      (New ["main"]).WithField errorKey
        (marshalErrOf (Value.unserializable "func value")) ∧
    (pkgWithStruct (New ["main"]) (Value.unserializable "func value")).1.data =
      setField (((New ["main"]).newEntry).1.data) errorKey
        (marshalErrOf (Value.unserializable "func value")) ∧
    printBlock { fields := [], obj := Value.unserializable "chan value",
                 args := "m", color := 32 } = none :=
  c6_marshal_failures (New ["main"]) (New ["main"])
    (Value.unserializable "func value")
    { fields := [], obj := Value.unserializable "chan value",
      args := "m", color := 32 } rfl rfl

/-- Modelled from the spec: a severity call on an Entry obtained from a
With* method (spec sections 4.2-4.3: the caller-held Entry's eventual
`log()` renders it, resets it and releases it to the pool; a gated-out
call emits nothing). -/
def entrySevCall (lg : LoggerM) (e : EntryM) (s : Level) (msg : String) :
    LoggerM :=
  if levelGe lg.level s then
    (lg.writeRecord (e.logE s msg).1).releaseEntry (e.logE s msg).2
  else lg

/-- One caller interaction with a Logger, for the pool-isolation
analysis: a plain severity call, or an Entry obtained via a With* method
and finished with a severity call on the Entry. -/
inductive LogOp where
  | sevCall (s : Level) (msg : String) : LogOp
  | withFieldThen (k : String) (v : Value) (s : Level) (msg : String) : LogOp
  | withFieldsThen (fs : Fields) (s : Level) (msg : String) : LogOp
  | withStructThen (v : Value) (s : Level) (msg : String) : LogOp

/-- Run one caller interaction. -/
def runOp (lg : LoggerM) : LogOp → LoggerM
  | LogOp.sevCall s msg => lg.sevGated s msg
  | LogOp.withFieldThen k v s msg =>
      entrySevCall (lg.WithField k v).2 (lg.WithField k v).1 s msg
  | LogOp.withFieldsThen fs s msg =>
      entrySevCall (lg.WithFields fs).2 (lg.WithFields fs).1 s msg
  | LogOp.withStructThen v s msg =>
      entrySevCall (lg.WithStruct v).2 (lg.WithStruct v).1 s msg

/-- Run a sequence of caller interactions. -/
def runOps (lg : LoggerM) : List LogOp → LoggerM
  | [] => lg
  | op :: rest => runOps (runOp lg op) rest

/-- The pool invariant of C5: every pooled Entry is indistinguishable
from a freshly constructed one. -/
def poolPristine (lg : LoggerM) : Prop :=
  ∀ e ∈ lg.pool, e = freshEntry lg.moduleName

theorem poolPristine_releaseEntry (lg : LoggerM) (e : EntryM)
    (h : poolPristine lg) (he : e = freshEntry lg.moduleName) :
    poolPristine (lg.releaseEntry e) := by
  intro x hx
  rcases List.mem_cons.mp hx with hx | hx
  · rw [hx, he]; rfl
  · exact h x hx

theorem poolPristine_writeRecord (lg : LoggerM) (r : RecordM)
    (h : poolPristine lg) : poolPristine (lg.writeRecord r) :=
  h

theorem pristine_newEntry_fst (lg : LoggerM) (h : poolPristine lg) :
    (lg.newEntry).1 = freshEntry lg.moduleName := by
  rcases lg with ⟨o, f, lv, mn, pool, w⟩
  cases pool with
  | nil => rfl
  | cons e rest => exact h e (by simp [LoggerM.newEntry])

theorem pristine_newEntry_snd (lg : LoggerM) (h : poolPristine lg) :
    poolPristine (lg.newEntry).2 := by
  rcases lg with ⟨o, f, lv, mn, pool, w⟩
  cases pool with
  | nil => exact h
  | cons e rest =>
    intro x hx
    exact h x (by simp [LoggerM.newEntry] at hx ⊢; exact Or.inr hx)

theorem newEntry_snd_moduleName (lg : LoggerM) :
    (lg.newEntry).2.moduleName = lg.moduleName := by
  rcases lg with ⟨o, f, lv, mn, pool, w⟩
  cases pool <;> rfl

theorem newEntry_snd_level (lg : LoggerM) :
    (lg.newEntry).2.level = lg.level := by
  rcases lg with ⟨o, f, lv, mn, pool, w⟩
  cases pool <;> rfl

theorem entrySevCall_pristine (lg : LoggerM) (e : EntryM) (s : Level)
    (msg : String) (h : poolPristine lg) (he : e.moduleName = lg.moduleName) :
    poolPristine (entrySevCall lg e s msg) := by
  unfold entrySevCall
  split
  · apply poolPristine_releaseEntry _ _ (poolPristine_writeRecord _ _ h)
    show freshEntry e.moduleName = freshEntry lg.moduleName
    rw [he]
  · exact h

theorem entrySevCall_moduleName (lg : LoggerM) (e : EntryM) (s : Level)
    (msg : String) :
    (entrySevCall lg e s msg).moduleName = lg.moduleName := by
  unfold entrySevCall
  split <;> rfl

theorem WithField_eval (lg : LoggerM) (k : String) (v : Value) :
    lg.WithField k v =
      ((lg.newEntry).1.withFieldE k v,
       (lg.newEntry).2.releaseEntry (lg.newEntry).1) := by
  rcases lg with ⟨o, f, lv, mn, pool, w⟩
  cases pool <;> rfl

theorem WithFields_eval (lg : LoggerM) (fs : Fields) :
    lg.WithFields fs =
      ((lg.newEntry).1.withFieldsE fs,
       (lg.newEntry).2.releaseEntry (lg.newEntry).1) := by
  rcases lg with ⟨o, f, lv, mn, pool, w⟩
  cases pool <;> rfl

theorem WithError_eval (lg : LoggerM) (err : Value) :
    lg.WithError err =
      ((lg.newEntry).1.withErrorE err,
       (lg.newEntry).2.releaseEntry (lg.newEntry).1) := by
  rcases lg with ⟨o, f, lv, mn, pool, w⟩
  cases pool <;> rfl

theorem WithJsonRaw_eval (lg : LoggerM) (bs : Value) :
    lg.WithJsonRaw bs =
      ((lg.newEntry).1.withJsonRawE bs,
       (lg.newEntry).2.releaseEntry (lg.newEntry).1) := by
  rcases lg with ⟨o, f, lv, mn, pool, w⟩
  cases pool <;> rfl

theorem sevGated_eval (lg : LoggerM) (s : Level) (msg : String) :
    lg.sevGated s msg =
      if levelGe lg.level s then
        (((lg.newEntry).2.writeRecord ((lg.newEntry).1.logE s msg).1).releaseEntry
          ((lg.newEntry).1.logE s msg).2)
      else lg := by
  rcases lg with ⟨o, f, lv, mn, pool, w⟩
  cases pool <;> rfl

theorem sevGated_pristine (lg : LoggerM) (s : Level) (msg : String)
    (h : poolPristine lg) : poolPristine (lg.sevGated s msg) := by
  rw [sevGated_eval]
  split
  · apply poolPristine_releaseEntry _ _
      (poolPristine_writeRecord _ _ (pristine_newEntry_snd _ h))
    show freshEntry (lg.newEntry).1.moduleName = _
    rw [pristine_newEntry_fst _ h]
    show freshEntry lg.moduleName = freshEntry (lg.newEntry).2.moduleName
    rw [newEntry_snd_moduleName]
  · exact h

theorem releaseEntry_moduleName (lg : LoggerM) (e : EntryM) :
    (lg.releaseEntry e).moduleName = lg.moduleName := rfl

theorem withBranch_snd_pristine (lg : LoggerM) (h : poolPristine lg) :
    poolPristine ((lg.newEntry).2.releaseEntry (lg.newEntry).1) := by
  apply poolPristine_releaseEntry _ _ (pristine_newEntry_snd _ h)
  rw [pristine_newEntry_fst _ h, newEntry_snd_moduleName]

theorem runOp_pristine (lg : LoggerM) (op : LogOp) (h : poolPristine lg) :
    poolPristine (runOp lg op) := by
  cases op with
  | sevCall s msg => exact sevGated_pristine lg s msg h
  | withFieldThen k v s msg =>
    rw [runOp, WithField_eval]
    apply entrySevCall_pristine _ _ _ _ (withBranch_snd_pristine lg h)
    show (lg.newEntry).1.moduleName = (lg.newEntry).2.moduleName
    rw [pristine_newEntry_fst _ h, newEntry_snd_moduleName]
    rfl
  | withFieldsThen fs s msg =>
    rw [runOp, WithFields_eval]
    apply entrySevCall_pristine _ _ _ _ (withBranch_snd_pristine lg h)
    show (lg.newEntry).1.moduleName = (lg.newEntry).2.moduleName
    rw [pristine_newEntry_fst _ h, newEntry_snd_moduleName]
    rfl
  | withStructThen v s msg =>
    rw [runOp]
    by_cases hsv : serializable v = true
    · rw [show lg.WithStruct v = lg.WithJsonRaw v by
        simp [LoggerM.WithStruct, jsonMarshal, hsv], WithJsonRaw_eval]
      apply entrySevCall_pristine _ _ _ _ (withBranch_snd_pristine lg h)
      show (lg.newEntry).1.moduleName = (lg.newEntry).2.moduleName
      rw [pristine_newEntry_fst _ h, newEntry_snd_moduleName]
      rfl
    · rw [show lg.WithStruct v = lg.WithError (marshalErrOf v) by
        simp [LoggerM.WithStruct, jsonMarshal,
          Bool.eq_false_iff.mpr hsv], WithError_eval]
      apply entrySevCall_pristine _ _ _ _ (withBranch_snd_pristine lg h)
      show (lg.newEntry).1.moduleName = (lg.newEntry).2.moduleName
      rw [pristine_newEntry_fst _ h, newEntry_snd_moduleName]
      rfl

theorem runOp_moduleName (lg : LoggerM) (op : LogOp) :
    (runOp lg op).moduleName = lg.moduleName := by
  cases op with
  | sevCall s msg =>
    show (lg.sevGated s msg).moduleName = lg.moduleName
    rw [sevGated_eval]
    split
    · rw [releaseEntry_moduleName,
        show (((lg.newEntry).2.writeRecord _)).moduleName =
          (lg.newEntry).2.moduleName from rfl, newEntry_snd_moduleName]
    · rfl
  | withFieldThen k v s msg =>
    rw [runOp, WithField_eval, entrySevCall_moduleName,
      releaseEntry_moduleName, newEntry_snd_moduleName]
  | withFieldsThen fs s msg =>
    rw [runOp, WithFields_eval, entrySevCall_moduleName,
      releaseEntry_moduleName, newEntry_snd_moduleName]
  | withStructThen v s msg =>
    rw [runOp]
    by_cases hsv : serializable v = true
    · rw [show lg.WithStruct v = lg.WithJsonRaw v by
        simp [LoggerM.WithStruct, jsonMarshal, hsv], WithJsonRaw_eval,
        entrySevCall_moduleName, releaseEntry_moduleName, newEntry_snd_moduleName]
    · rw [show lg.WithStruct v = lg.WithError (marshalErrOf v) by
        simp [LoggerM.WithStruct, jsonMarshal, Bool.eq_false_iff.mpr hsv],
        WithError_eval, entrySevCall_moduleName, releaseEntry_moduleName,
        newEntry_snd_moduleName]

theorem runOps_pristine (ops : List LogOp) (lg : LoggerM)
    (h : poolPristine lg) : poolPristine (runOps lg ops) := by
  induction ops generalizing lg with
  | nil => exact h
  | cons op rest ih => exact ih _ (runOp_pristine lg op h)

theorem runOps_moduleName (ops : List LogOp) (lg : LoggerM) :
    (runOps lg ops).moduleName = lg.moduleName := by
  induction ops generalizing lg with
  | nil => rfl
  | cons op rest ih =>
    calc (runOps (runOp lg op) rest).moduleName
        = (runOp lg op).moduleName := ih _
      _ = lg.moduleName := runOp_moduleName lg op

/-- C5: after any sequence of caller interactions with a Logger — gated
severity calls and With*-then-log chains — every Entry obtained from the
pool is indistinguishable from a freshly constructed Entry (empty
fields, empty message, zero level, no JSON payload); consequently a
With*-obtained Entry carries exactly the data just given to it, so a
field set on one Entry is never observable on an independently obtained
Entry of the same Logger. -/
theorem c5_pool_isolation (names : List String) (ops : List LogOp)
    (k : String) (v : Value) (fs : Fields) :
    ((runOps (New names) ops).newEntry).1 =
      freshEntry ((runOps (New names) ops).moduleName) ∧
    ((runOps (New names) ops).WithField k v).1.data = [(k, v)] ∧
    ((runOps (New names) ops).WithFields fs).1.data = mergeFields [] fs := by
  have hpr : poolPristine (New names) := by
    intro e he
    simp [New] at he
  have h1 : poolPristine (runOps (New names) ops) :=
    runOps_pristine ops (New names) hpr
  refine ⟨pristine_newEntry_fst _ h1, ?_, ?_⟩
  · rw [WithField_eval]
    show ((((runOps (New names) ops).newEntry).1.withFieldE k v)).data = [(k, v)]
    rw [pristine_newEntry_fst _ h1]
    simp [EntryM.withFieldE, freshEntry, setField]
  · rw [WithFields_eval]
    show ((((runOps (New names) ops).newEntry).1.withFieldsE fs)).data =
      mergeFields [] fs
    rw [pristine_newEntry_fst _ h1]
    simp [EntryM.withFieldsE, freshEntry]
